import Mathlib

/-!
Shallow embedding of the vitepress-linkcard plugin, covering the metadata
extractor (`parserMetadata` and its helpers), the URL utilities
(`extractUrl`, `cleanPath`), the card renderer (`generateCardDomFragment`
and its style helpers), the persistent file cache (`LocalFileCache`) and
the markdown integration (`parseCardLinkHref`, `ignoreRestToken`,
`joinLinkTitle`, `assembleCardTpl`, the `link_open` rule).

JavaScript strings are modelled as Lean `String`/`List Char`; JavaScript
regular expressions are modelled by a small backtracking matcher
(`reMatch`) with the same semantics as the JS engine for the constructs
the source uses (literals, character classes, greedy `*`/`+`/`?`,
alternation, capture groups, leftmost match); thrown exceptions are
modelled with `Except`; `undefined` is modelled with `Option`.
-/

set_option maxRecDepth 8000

/-- The apostrophe character, used in the regex quote classes. -/
def apos : Char := '\''

/-- JS `String.prototype.includes`-style substring test on char lists. -/
def containsSub : List Char → List Char → Bool
  | _, [] => false
  | sub, whole@(_ :: t) => sub.isPrefixOf whole || containsSub sub t

/-- Degenerate case: the empty pattern occurs in every string. -/
def containsSubstr (sub whole : List Char) : Bool :=
  sub.isEmpty || containsSub sub whole

/-- JS `str.replace(pat, rep)` with a plain-string pattern replaces only the
first occurrence, scanning left to right. Main loop for a nonempty pattern. -/
def replaceFirstGo (pat rep : List Char) : List Char → List Char
  | [] => []
  | c :: rest =>
    if pat.isPrefixOf (c :: rest) then rep ++ List.drop (pat.length - 1) rest
    else c :: replaceFirstGo pat rep rest

/-- JS `str.replace(pat, rep)` for a plain-string pattern (first occurrence only). -/
def replaceFirstList (pat rep s : List Char) : List Char :=
  if pat.isEmpty then rep ++ s else replaceFirstGo pat rep s

/-- JS `str.replace(/pat/g, rep)` for a plain-string pattern: replaces every
occurrence, scanning left to right without overlap. The fuel argument (the
input length at the call site) only makes the recursion structural: every
step consumes at least one character, so the fuel never runs out. -/
def replaceAllGo (pat rep : List Char) : Nat → List Char → List Char
  | _, [] => []
  | 0, s => s
  | fuel + 1, c :: rest =>
    if pat.isPrefixOf (c :: rest) then
      rep ++ replaceAllGo pat rep fuel (List.drop (pat.length - 1) rest)
    else c :: replaceAllGo pat rep fuel rest

/-- JS global string replacement (empty patterns do not occur in the source). -/
def replaceAllList (pat rep s : List Char) : List Char :=
  if pat.isEmpty then s else replaceAllGo pat rep s.length s

/-- Regular-expression abstract syntax for the patterns the source uses. -/
inductive RE where
  | eps
  | lit (c : Char)
  | cls (p : Char → Bool)
  | seq (a b : RE)
  | alt (a b : RE)
  | star (a : RE)
  | opt (a : RE)
  | group (i : Nat) (a : RE)

/-- Capture groups: group index paired with the captured characters; the most
recent capture of a group is first (as in JS, the last iteration wins). -/
abbrev Groups := List (Nat × List Char)

/-- A match continuation: receives the remaining input and captures so far. -/
abbrev MCont := List Char → Groups → Option (List Char × Groups)

/-- Greedy Kleene-star loop: try to consume one more body match (requiring
progress, as the JS engine breaks on an empty iteration) and only on failure
fall back to the continuation. -/
def starLoop (body : List Char → Groups → MCont → Option (List Char × Groups)) :
    Nat → List Char → Groups → MCont → Option (List Char × Groups)
  | 0, s, gs, k => k s gs
  | fuel + 1, s, gs, k =>
    match body s gs (fun s' gs' =>
      if s'.length < s.length then starLoop body fuel s' gs' k else none) with
    | some r => some r
    | none => k s gs

/-- Backtracking matcher with JS regex semantics: greedy quantifiers,
left-biased alternation, capture groups recorded on completion. -/
def reMatch : RE → List Char → Groups → MCont → Option (List Char × Groups)
  | .eps, s, gs, k => k s gs
  | .lit c, s, gs, k =>
    match s with
    | [] => none
    | x :: xs => if x = c then k xs gs else none
  | .cls p, s, gs, k =>
    match s with
    | [] => none
    | x :: xs => if p x then k xs gs else none
  | .seq a b, s, gs, k => reMatch a s gs (fun s' gs' => reMatch b s' gs' k)
  | .alt a b, s, gs, k =>
    match reMatch a s gs k with
    | some r => some r
    | none => reMatch b s gs k
  | .star a, s, gs, k => starLoop (reMatch a) (s.length + 1) s gs k
  | .opt a, s, gs, k =>
    match reMatch a s gs k with
    | some r => some r
    | none => k s gs
  | .group i a, s, gs, k =>
    reMatch a s gs (fun s' gs' => k s' ((i, s.take (s.length - s'.length)) :: gs'))

/-- Attempt a match anchored at the start of the input; on success return the
matched prefix and the captures. -/
def reMatchAt (re : RE) (s : List Char) : Option (List Char × Groups) :=
  match reMatch re s [] (fun rem gs => some (rem, gs)) with
  | some (rem, gs) => some (s.take (s.length - rem.length), gs)
  | none => none

/-- Leftmost match: scan start positions left to right, as JS `String.match`. -/
def reFind : RE → List Char → Option (List Char × Groups)
  | re, [] => reMatchAt re []
  | re, s@(_ :: t) =>
    match reMatchAt re s with
    | some r => some r
    | none => reFind re t

/-- JS `str.match(re)[0]`: the full text of the first match, if any. -/
def jsMatch0 (re : RE) (s : String) : Option (List Char) :=
  (reFind re s.data).map (fun r => r.1)

/-- Value of capture group `i` of the first match of `re` in `s`, if the match
succeeds and the group participated (otherwise JS yields `undefined`). -/
def jsMatchGroup (re : RE) (s : String) (i : Nat) : Option (List Char) :=
  (reFind re s.data).bind (fun r => (r.2.find? (fun g => g.1 = i)).map (fun g => g.2))

/-- Sequence of literal characters, for the literal parts of the patterns. -/
def lits (s : String) : RE :=
  s.data.foldr (fun c r => RE.seq (RE.lit c) r) RE.eps

/-- JS `X+` is one copy of `X` followed by `X*`. -/
def rePlus (r : RE) : RE := RE.seq r (RE.star r)

/-- Character class `[^>]`. -/
def notGt (c : Char) : Bool := c ≠ '>'

/-- Character class `["|']` (a quote, a bar, or an apostrophe). -/
def quoteBar (c : Char) : Bool := c = '"' || c = '|' || c = apos

/-- JS `\w`: ASCII letters, digits and underscore. -/
def wordChar (c : Char) : Bool := c.isAlphanum || c = '_'

/-- JS `\s` (model restricted to the common whitespace characters). -/
def jsSpace (c : Char) : Bool :=
  c = ' ' || c = '\t' || c = '\n' || c = '\r' || c = '\x0b' || c = '\x0c'

/-- Character class `[a-zA-Z]`. -/
def asciiAlpha (c : Char) : Bool := c.isAlpha

/-- Character class `[a-zA-Z0-9]`. -/
def asciiAlnum (c : Char) : Bool := c.isAlphanum

/-- JS `.`: any character except a line terminator. -/
def dotAny (c : Char) : Bool :=
  !(c = '\n' || c = '\r' || c = '\u2028' || c = '\u2029')

/-- Regex `content=["|']([^>]*)["|']` from the parser module. -/
def ContentAttrValueHtmlMetaTagReg : RE :=
  RE.seq (lits ("content="))
    (RE.seq (RE.cls quoteBar)
      (RE.seq (RE.group 1 (RE.star (RE.cls notGt))) (RE.cls quoteBar)))

/-- Regex `href=["|']([^>]*)["|']` from the parser module. -/
def HrefAttrValueHtmlLinkTagReg : RE :=
  RE.seq (lits ("href="))
    (RE.seq (RE.cls quoteBar)
      (RE.seq (RE.group 1 (RE.star (RE.cls notGt))) (RE.cls quoteBar)))

/-- Regex `(<title\s*[^>]*>(.*)<\/title>)` from the parser module
(used with the `g` flag, where `match` yields the full match texts). -/
def HtmlTitleTagReg : RE :=
  RE.group 1
    (RE.seq (lits ("<title"))
      (RE.seq (RE.star (RE.cls jsSpace))
        (RE.seq (RE.star (RE.cls notGt))
          (RE.seq (RE.lit '>')
            (RE.seq (RE.group 2 (RE.star (RE.cls dotAny))) (lits ("</title>")))))))

/-- Regex `(<[A-Za-z]+\s*[^>]*>(.*)<\/[A-Za-z]+>)` from the parser module. -/
def HtmlTagContentReg : RE :=
  RE.group 1
    (RE.seq (RE.lit '<')
      (RE.seq (rePlus (RE.cls asciiAlpha))
        (RE.seq (RE.star (RE.cls jsSpace))
          (RE.seq (RE.star (RE.cls notGt))
            (RE.seq (RE.lit '>')
              (RE.seq (RE.group 2 (RE.star (RE.cls dotAny)))
                (RE.seq (RE.lit '<')
                  (RE.seq (RE.lit '/')
                    (RE.seq (rePlus (RE.cls asciiAlpha)) (RE.lit '>'))))))))))

/-- Regex factory `<${tag}\s[^>]*\w+=['|"]([a-zA-Z]|:|\s)*${attr}['|"][^>]*\/?>`
from the parser module (`containArrSelfLosingHtmlTagReg`); the source defaults
`tag` to `meta`, spelled explicitly at every call site here. -/
def containArrSelfLosingHtmlTagReg (attr : String) (tag : String) : RE :=
  RE.seq (RE.lit '<')
    (RE.seq (lits tag)
      (RE.seq (RE.cls jsSpace)
        (RE.seq (RE.star (RE.cls notGt))
          (RE.seq (rePlus (RE.cls wordChar))
            (RE.seq (RE.lit '=')
              (RE.seq (RE.cls quoteBar)
                (RE.seq
                  (RE.star (RE.group 1
                    (RE.alt (RE.cls asciiAlpha) (RE.alt (RE.lit ':') (RE.cls jsSpace)))))
                  (RE.seq (lits attr)
                    (RE.seq (RE.cls quoteBar)
                      (RE.seq (RE.star (RE.cls notGt))
                        (RE.seq (RE.opt (RE.lit '/')) (RE.lit '>'))))))))))))

/-- Error value for the `TypeError` thrown by the platform `new URL(...)`
constructor on an invalid URL string. -/
def urlTypeError : String := "TypeError: Invalid URL"

/-- Parsed URL object, as far as the source consumes it (`origin`). Models the
platform WHATWG `URL` class. -/
structure JsURL where
  protocol : String
  host : String
deriving DecidableEq

/-- `URL.origin`: `scheme://host` for the special http/https schemes, the
string `null` otherwise. -/
def JsURL.origin (u : JsURL) : String :=
  if u.protocol = ("http") || u.protocol = ("https") then
    u.protocol ++ ("://") ++ u.host
  else ("null")

/-- Characters allowed in a URL scheme after its initial letter. -/
def schemeChar (c : Char) : Bool :=
  c.isAlphanum || c = '+' || c = '-' || c = '.'

/-- Model of the platform WHATWG URL parser, as used through `new URL(...)`:
a URL string is valid iff it starts with a scheme (`letter
(letter|digit|+|-|.)* :`); the special http/https schemes additionally
require `//` and a nonempty host, which ends at `/`, `?` or `#` and
determines the origin. Strings with no scheme (such as `/img/a.png` or
`favicon.ico`) are invalid and make the constructor throw. -/
def parseURL (s : String) : Option JsURL :=
  match s.data with
  | [] => none
  | c :: rest =>
    if c.isAlpha then
      let scheme := (c :: rest.takeWhile schemeChar).map Char.toLower
      match rest.dropWhile schemeChar with
      | ':' :: rest2 =>
        if scheme = ("http").data || scheme = ("https").data then
          match rest2 with
          | '/' :: '/' :: rest3 =>
            let host := rest3.takeWhile (fun h => h ≠ '/' && h ≠ '?' && h ≠ '#')
            if host.isEmpty then none
            else some { protocol := ⟨scheme⟩, host := ⟨host⟩ }
          | _ => none
        else some { protocol := ⟨scheme⟩, host := "" }
      | _ => none
    else none

/-- `extractUrl` from the url module: `return new URL(url)`; the constructor
throws a `TypeError` when the string is not a valid URL. -/
def extractUrl (url : String) : Except String JsURL :=
  match parseURL url with
  | some u => Except.ok u
  | none => Except.error urlTypeError

/-- `cleanPath` from the url module: `path.replace(/\/\//g, '/')`. -/
def cleanPath (path : String) : String :=
  ⟨replaceAllList (("//").data) (("/").data) path.data⟩

/-- Default logo URL used when no logo can be extracted from the page. -/
def DEFAULT_LOGO : String := "https://resources.whatwg.org/logo-url.svg"

/-- Model of `isString` from `@luckrya/utility`: `typeof v === 'string'`,
on an optional string (absent values are `undefined`). -/
def isStringJs (v : Option String) : Bool := v.isSome

/-- `matchTitleByMetaTag` from the parser module: first match of the
`meta`+`title` tag regex; on a hit, group 1 of the `content` attribute regex
applied to the matched tag text; otherwise fall back to the `<title>` tag
regex and group 2 of the tag-content regex. When the meta tag matches but has
no `content` attribute, the title stays absent (no fallback). -/
def matchTitleByMetaTag (htmlString : String) : Option String :=
  match jsMatch0 (containArrSelfLosingHtmlTagReg ("title") ("meta")) htmlString with
  | some m0 =>
    (jsMatchGroup ContentAttrValueHtmlMetaTagReg (⟨m0⟩ : String) 1).map
      (fun l => (⟨l⟩ : String))
  | none =>
    match jsMatch0 HtmlTitleTagReg htmlString with
    | some t0 =>
      (jsMatchGroup HtmlTagContentReg (⟨t0⟩ : String) 2).map (fun l => (⟨l⟩ : String))
    | none => none

/-- `matchDescriptionByMetaTag` from the parser module. -/
def matchDescriptionByMetaTag (htmlString : String) : Option String :=
  match jsMatch0 (containArrSelfLosingHtmlTagReg ("description") ("meta")) htmlString with
  | some m0 =>
    (jsMatchGroup ContentAttrValueHtmlMetaTagReg (⟨m0⟩ : String) 1).map
      (fun l => (⟨l⟩ : String))
  | none => none

/-- `matchLogoByLinkOrMetaTag` from the parser module: `meta`+`image` tag
first, else `link`+`icon` tag with its `href` attribute. -/
def matchLogoByLinkOrMetaTag (htmlString : String) : Option String :=
  match jsMatch0 (containArrSelfLosingHtmlTagReg ("image") ("meta")) htmlString with
  | some m0 =>
    (jsMatchGroup ContentAttrValueHtmlMetaTagReg (⟨m0⟩ : String) 1).map
      (fun l => (⟨l⟩ : String))
  | none =>
    match jsMatch0 (containArrSelfLosingHtmlTagReg ("icon") ("link")) htmlString with
    | some m0 =>
      (jsMatchGroup HrefAttrValueHtmlLinkTagReg (⟨m0⟩ : String) 1).map
        (fun l => (⟨l⟩ : String))
    | none => none

/-- A `URL` object is a truthy JS value, whatever its fields. -/
def urlTruthy (_ : JsURL) : Bool := true

/-- The `absolute` helper inside `parserMetadata`:
`if (!logo) return DEFAULT_LOGO; return extractUrl(logo) ? logo :
extractUrl(url)?.origin + cleanPath('/' + logo)`. A missing or empty
candidate (both falsy) yields the default logo; otherwise `extractUrl(logo)`
either throws (propagated as `Except.error`) or returns a truthy `URL`
object, in which case the candidate is returned unchanged; the
origin-concatenation branch is only reachable if `extractUrl` could return a
falsy value. -/
def absolute (url : String) (logo : Option String) : Except String String :=
  match logo with
  | none => Except.ok DEFAULT_LOGO
  | some l =>
    if l = "" then Except.ok DEFAULT_LOGO
    else
      match extractUrl l with
      | Except.error e => Except.error e
      | Except.ok lu =>
        if urlTruthy lu then Except.ok l
        else
          match extractUrl url with
          | Except.error e => Except.error e
          | Except.ok u => Except.ok (u.origin ++ cleanPath (("/") ++ l))

/-- Metadata record extracted from a page (`UrlMetadata` in the source;
absent fields are `undefined`). -/
structure UrlMetadata where
  title : Option String
  description : Option String
  logo : Option String
deriving DecidableEq

/-- `isEmptyStringObject` from the parser module:
`!Object.values(obj).filter((v) => isString(v)).length`. -/
def isEmptyStringObject (vals : List (Option String)) : Bool :=
  (vals.filter isStringJs).length = 0

/-- `parserMetadata` from the parser module: extract title, description and
logo (the logo already passed through `absolute`), then return null when all
three fields fail the `isString` filter. Exceptions raised while resolving
the logo propagate to the caller. -/
def parserMetadata (htmlString url : String) : Except String (Option UrlMetadata) :=
  match absolute url (matchLogoByLinkOrMetaTag htmlString) with
  | Except.error e => Except.error e
  | Except.ok logoAbs =>
    let metadata : UrlMetadata :=
      { title := matchTitleByMetaTag htmlString
        description := matchDescriptionByMetaTag htmlString
        logo := some logoAbs }
    if isEmptyStringObject [metadata.title, metadata.description, metadata.logo] then
      Except.ok none
    else Except.ok (some metadata)

/-- `hyphenate` from the style module:
`str.replace(/\B([A-Z])/g, '-$1').toLowerCase()`. `\B` holds before an
uppercase letter exactly when the preceding character exists and is a word
character, so a dash is inserted there; then everything is lowercased. -/
def hyphenateGo : Option Char → List Char → List Char
  | _, [] => []
  | prev, c :: rest =>
    if c.isUpper && (match prev with | some p => wordChar p | none => false) then
      '-' :: c :: hyphenateGo (some c) rest
    else c :: hyphenateGo (some c) rest

/-- `hyphenate` on strings. -/
def hyphenate (str : String) : String :=
  ⟨(hyphenateGo none str.data).map Char.toLower⟩

/-- A JS style value: a string, an integer, or the decimal literal `0.8`
(stored with its JS rendering). Carries JS truthiness. -/
inductive CssVal where
  | s (v : String)
  | i (v : Int)
  | d (v : String)
deriving DecidableEq

/-- Template-literal rendering of a style value. -/
def CssVal.render : CssVal → String
  | .s v => v
  | .i v => toString v
  | .d v => v

/-- JS truthiness of a style value (`''` and `0` are falsy). -/
def CssVal.truthy : CssVal → Bool
  | .s v => v ≠ ""
  | .i v => v ≠ 0
  | .d _ => true

/-- `join` from the style module: map entries to `key: value;` (skipping
falsy keys or values), drop the skipped ones, join with a space. -/
def joinStyle (style : List (String × CssVal)) : String :=
  String.intercalate (" ")
    (style.filterMap (fun kv =>
      if kv.1 ≠ "" && kv.2.truthy then
        some (hyphenate kv.1 ++ (": ") ++ kv.2.render ++ (";"))
      else none))

/-- `inlineStyle` from the style module. -/
def inlineStyle (style : List (String × CssVal)) : String :=
  ("style=\"") ++ joinStyle style ++ ("\"")

/-- `ellipsisStyle` from the style module. -/
def ellipsisStyle (line : Int) : List (String × CssVal) :=
  [(("-webkit-box-orient"), CssVal.s ("vertical")),
   (("-webkit-line-clamp"), CssVal.i line),
   (("display"), CssVal.s ("-webkit-box")),
   (("hyphens"), CssVal.s ("auto")),
   (("lineClamp"), CssVal.i line),
   (("overflow"), CssVal.s ("hidden")),
   (("overflowWrap"), CssVal.s ("anywhere")),
   (("textOverflow"), CssVal.s ("ellipsis")),
   (("wordBreak"), CssVal.s ("break-word"))]

/-- The inline style attribute strings produced by `STYLE()`. -/
structure StyleSet where
  a : String
  container : String
  img : String
  texts : String
  title : String
  domain : String
  description : String

/-- `STYLE` from the style module (the source is a nullary function). -/
def STYLE : StyleSet :=
  { a := inlineStyle
      [(("color"), CssVal.s ("unset !important")),
       (("display"), CssVal.s ("block")),
       (("width"), CssVal.s ("100%")),
       (("textDecoration"), CssVal.s ("none"))]
    container := inlineStyle
      [(("display"), CssVal.s ("flex")),
       (("alignItems"), CssVal.s ("center")),
       (("flexWrap"), CssVal.s ("wrap")),
       (("gap"), CssVal.s ("10px")),
       (("borderRadius"), CssVal.s ("12px")),
       (("border"), CssVal.s ("1px solid var(--vp-c-bg-soft)")),
       (("backgroundColor"), CssVal.s ("var(--vp-c-bg-soft)")),
       (("boxSizing"), CssVal.s ("border-box")),
       (("width"), CssVal.s ("100%")),
       (("height"), CssVal.s ("130px")),
       (("transition"), CssVal.s ("border-color 0.25s, background-color 0.25s"))]
    img := inlineStyle
      [(("borderRadius"), CssVal.s ("0px 12px 12px 0px")),
       (("maxWidth"), CssVal.s ("40%")),
       (("height"), CssVal.s ("128px")),
       (("flexShrink"), CssVal.i 0),
       (("objectFit"), CssVal.s ("contain")),
       (("overflow"), CssVal.s ("hidden"))]
    texts := inlineStyle
      [(("flex"), CssVal.s ("1 1 0%")),
       (("minWidth"), CssVal.s ("0"))]
    title := inlineStyle
      (ellipsisStyle 2 ++
       [(("opacity"), CssVal.i 1),
        (("fontSize"), CssVal.s ("16px")),
        (("lineHeight"), CssVal.s ("22px")),
        (("margin"), CssVal.s ("0 16px 8px 16px")),
        (("fontWeight"), CssVal.s ("bold"))])
    domain := inlineStyle
      (ellipsisStyle 1 ++
       [(("opacity"), CssVal.i 1),
        (("fontSize"), CssVal.s ("12px")),
        (("lineHeight"), CssVal.s ("16px")),
        (("margin"), CssVal.s ("8px 16px 8px 16px")),
        (("textDecoration"), CssVal.s ("underline"))])
    description := inlineStyle
      (ellipsisStyle 2 ++
       [(("opacity"), CssVal.d ("0.8")),
        (("fontSize"), CssVal.s ("12px")),
        (("lineHeight"), CssVal.s ("16px")),
        (("margin"), CssVal.s ("8px 16px 0px 16px"))]) }

/-- JS `s || fallback` on strings: the empty string is falsy. -/
def jsOr (s fallback : String) : String :=
  if s = "" then fallback else s

/-- JS `v || fallback` on an optional string: `undefined` and `''` are falsy. -/
def jsOrOpt (v : Option String) (fallback : String) : String :=
  match v with
  | none => fallback
  | some s => if s = "" then fallback else s

/-- Template interpolation of a possibly-undefined string (`${undefined}`
renders as the text `undefined`). -/
def showOpt : Option String → String
  | some s => s
  | none => "undefined"

/-- Options passed to the card renderer (`CardDomRenderOptions` in the
source; the class-name field is called classPrefix there). -/
structure CardDomRenderOptions where
  href : String
  linkTitle : String
  target : String
  classPfx : Option String

/-- `escapeHTML` inside `generateCardDomFragment`: the chain of global
replacements `&amp;`→`&`, `&lt;`→`<`, `&gt;`→`>`, `&quot;`→`"`,
`&#039;`→`'`, applied in that order. -/
def escapeHTML (str : String) : String :=
  ⟨replaceAllList (("&#039;").data) [apos]
    (replaceAllList (("&quot;").data) (("\"").data)
      (replaceAllList (("&gt;").data) ((">").data)
        (replaceAllList (("&lt;").data) (("<").data)
          (replaceAllList (("&amp;").data) (("&").data) str.data))))⟩

/-- The anchored replacement `.replace(/^https?:\/\//, '')`: strip one
leading `https://` or `http://`. -/
def stripScheme (s : String) : String :=
  if ("https://").data.isPrefixOf s.data then ⟨s.data.drop 8⟩
  else if ("http://").data.isPrefixOf s.data then ⟨s.data.drop 7⟩
  else s

/-- The anchored replacement `.replace(/^www\./, '')`. -/
def stripWww (s : String) : String :=
  if ("www.").data.isPrefixOf s.data then ⟨s.data.drop 4⟩ else s

/-- The domain label in `generateCardDomFragment`:
`new URL(url).origin.replace(/^https?:\/\//, '').replace(/^www\./, '') ||
'Unknown domain'`; `new URL` throws on an invalid href. -/
def deriveDomain (url : String) : Except String String :=
  match extractUrl url with
  | Except.error e => Except.error e
  | Except.ok u => Except.ok (jsOr (stripWww (stripScheme u.origin)) ("Unknown domain"))

/-- The github.com branch for the title:
`data.title?.split(':')[0].replace('GitHub - ', '') || 'No title'`. -/
def githubTitle (dataTitle : Option String) : String :=
  match dataTitle with
  | none => "No title"
  | some t =>
    jsOr (⟨replaceFirstList (("GitHub - ").data) [] (t.data.takeWhile (fun c => c ≠ ':'))⟩)
      ("No title")

/-- The github.com branch for the description:
`description?.replace(` - ${title}`, '').replace(`Contribute to ${title}
development by creating an account on GitHub.`, '') || ''` (where `title` is
the already-cleaned title). -/
def githubDescription (dataDescription : Option String) (title : String) : String :=
  match dataDescription with
  | none => ""
  | some d =>
    jsOr
      (⟨replaceFirstList
          ((("Contribute to ") ++ title ++
            (" development by creating an account on GitHub.")).data) []
          (replaceFirstList ((" - ") ++ title).data [] d.data)⟩)
      ""

/-- The identity `inject` helper from the source. -/
def inject (s : String) : String := s

/-- `generateCardDomFragment` from the html module: the default card
renderer. Builds the anchor attributes, derives the domain label, applies
the github.com text cleanup, then assembles the template literal verbatim
(including its indentation). `new URL(options.href)` can throw. -/
def generateCardDomFragment (data : UrlMetadata) (options : CardDomRenderOptions) :
    Except String String :=
  let aaRel := ("rel=\"noopener noreferrer\"")
  let aaTarget := ("target=\"") ++ options.target ++ ("\"")
  let aaHref := ("href=\"") ++ options.href ++ ("\"")
  let aaTitle := ("title=\"") ++ options.linkTitle ++ ("\"")
  let style := STYLE
  let url := jsOr options.href ""
  match deriveDomain url with
  | Except.error e => Except.error e
  | Except.ok domain =>
    let title :=
      if domain = ("github.com") then githubTitle data.title
      else jsOrOpt data.title ("No title")
    let description :=
      if domain = ("github.com") then githubDescription data.description (githubTitle data.title)
      else jsOrOpt data.description ""
    Except.ok
      (("<span style=\"display:block;\">\n  <a ") ++ aaRel ++ (" ") ++ aaTarget ++ (" ") ++
       aaHref ++ (" ") ++ aaTitle ++ (" ") ++ style.a ++
       (">\n    <span class=\"vitepress-linkcard-container\" ") ++ inject style.container ++
       (">\n      <span ") ++ inject style.texts ++
       (">\n        <span ") ++ inject style.title ++
       (">\n          ") ++ escapeHTML title ++
       ("\n        </span>\n        <span ") ++ inject style.domain ++
       (">\n          ") ++ escapeHTML domain ++
       ("\n        </span>\n        <span ") ++ inject style.description ++
       (">\n          ") ++ escapeHTML description ++
       ("\n        </span>\n      </span>\n      <img src=\"") ++ showOpt data.logo ++
       ("\" ") ++ inject style.img ++ ("/>\n    </span>\n  </a>\n</span>"))

/-- The parsed content of the cache file: a JS object mapping URL strings to
metadata records (property order preserved, keys unique as in any JS
object). -/
abbrev CacheObj := List (String × UrlMetadata)

/-- JS object property lookup. -/
def objGet (m : CacheObj) (k : String) : Option UrlMetadata :=
  (m.find? (fun p => p.1 = k)).map (fun p => p.2)

/-- `Object.assign(existing, {k: v})`: update the property in place when the
key exists, else append it. -/
def objAssignOne : CacheObj → String → UrlMetadata → CacheObj
  | [], k, v => [(k, v)]
  | p :: t, k, v => if p.1 = k then (k, v) :: t else p :: objAssignOne t k v

/-- `LocalFileCache.setFile` with a single-entry update: merge into the
existing parsed file content when it is a pure object, else write just the
new entry; the subsequent `format()` re-serialization does not change the
parsed content. The file state is the parsed object (`none` when the content
is not a pure object). -/
def setFile (file : Option CacheObj) (k : String) (v : UrlMetadata) : CacheObj :=
  match file with
  | some m => objAssignOne m k v
  | none => [(k, v)]

/-- `LocalFileCache.set(url, data)`: `this.setFile({ [url]: data })`. -/
def cacheSet (file : Option CacheObj) (url : String) (data : UrlMetadata) : CacheObj :=
  setFile file url data

/-- `LocalFileCache.get(url)`: read the file and index by the URL. -/
def cacheGet (file : Option CacheObj) (url : String) : Option UrlMetadata :=
  file.bind (fun m => objGet m url)

/-- A markdown-it inline token, with the fields the plugin consumes. -/
structure Token where
  type : String
  tag : String
  attrs : Option (List (List String))
  content : String
  hidden : Bool
deriving DecidableEq

instance : Inhabited Token := ⟨⟨"", "", none, "", false⟩⟩

/-- `token.attrs?.filter((attr) => attr.includes('href'))[0]?.[1]`: the
second element of the first attribute pair containing the string `href`. -/
def hrefOfToken (t : Token) : Option String :=
  match t.attrs with
  | none => none
  | some attrs =>
    ((attrs.filter (fun attr => attr.contains ("href"))).head?).bind (fun attr => attr[1]?)

/-- Regex `^(@:)([a-zA-Z0-9]+.*)` built inside `parseCardLinkHref` (the
source writes the prefix as `(${'@'}:)`). -/
def tagRegexp : RE :=
  RE.seq (RE.group 1 (lits ("@:")))
    (RE.group 2 (RE.seq (rePlus (RE.cls asciiAlnum)) (RE.star (RE.cls dotAny))))

/-- Result of `parseCardLinkHref`. -/
structure CardLinkParse where
  isCardLink : Bool
  url : Option String
deriving DecidableEq

/-- `parseCardLinkHref` from the plugin: match the anchored card-tag regex
against the href; `isCardLink` is the double-negated match result and `url`
is capture group 2. -/
def parseCardLinkHref (href : Option String) : CardLinkParse :=
  match href with
  | none => { isCardLink := false, url := none }
  | some s =>
    match reMatchAt tagRegexp s.data with
    | some (_, gs) =>
      { isCardLink := true
        url := ((gs.find? (fun g => g.1 = 2)).map (fun g => g.2)).map (fun l => (⟨l⟩ : String)) }
    | none => { isCardLink := false, url := none }

/-- `ignoreRestToken` from the plugin: `tokens.forEach((token, index) => {
if (index !== i) token.hidden = true })`. Recursive loop carrying the
running index. -/
def ignoreRestTokenGo (i : Nat) : Nat → List Token → List Token
  | _, [] => []
  | idx, t :: rest =>
    (if idx ≠ i then { t with hidden := true } else t) :: ignoreRestTokenGo i (idx + 1) rest

/-- `ignoreRestToken`, starting at index 0. -/
def ignoreRestToken (tokens : List Token) (i : Nat) : List Token :=
  ignoreRestTokenGo i 0 tokens

/-- `joinLinkTitle` from the plugin: concatenate the content of the hidden
tokens (the map yields `''` for visible tokens and `filter(Boolean)` drops
the empty strings). -/
def joinLinkTitle (tokens : List Token) : String :=
  String.join ((tokens.map (fun t => if t.hidden then t.content else "")).filter
    (fun s => s ≠ ""))

/-- `assembleCardTpl` from the plugin, with the metadata lookup
(`getUrlMetadata`, which performs caching and a network fetch) abstracted as
a function argument and the `render` plugin option absent, so the default
renderer runs. Returns the card HTML (or `none` when no metadata) together
with the token list after the side effect of `ignoreRestToken`; renderer
exceptions propagate. -/
def assembleCardTpl (getMeta : String → Option UrlMetadata)
    (pluginTarget pluginClassPfx : Option String) (url : String)
    (tokens : List Token) (i : Nat) : Except String (Option String × List Token) :=
  match getMeta url with
  | none => Except.ok (none, tokens)
  | some urlMetadata =>
    let tokens' := ignoreRestToken tokens i
    let cardDomOptions : CardDomRenderOptions :=
      { href := url
        linkTitle := joinLinkTitle tokens'
        target := jsOrOpt pluginTarget ("_blank")
        classPfx := pluginClassPfx }
    match generateCardDomFragment urlMetadata cardDomOptions with
    | Except.error e => Except.error e
    | Except.ok dom => Except.ok (some dom, tokens')

/-- The `link_open` renderer rule from the plugin: when the token is a link
opener whose href parses as a card link (all three conjuncts truthy), build
the card and return it if truthy; in every other case fall back to the
host's `self.renderToken` output (modelled by the `renderTokenOut`
argument). Returns the emitted HTML and the token list after any hiding side
effect. -/
def linkOpenRule (getMeta : String → Option UrlMetadata)
    (pluginTarget pluginClassPfx : Option String) (tokens : List Token) (i : Nat)
    (renderTokenOut : String) : Except String (String × List Token) :=
  let token := tokens.getD i default
  let isLinkOpenToken := token.tag = ("a") && token.type = ("link_open")
  let parsed := parseCardLinkHref (hrefOfToken token)
  if isLinkOpenToken && parsed.isCardLink &&
      (match parsed.url with | some u => u ≠ "" | none => false) then
    match assembleCardTpl getMeta pluginTarget pluginClassPfx (parsed.url.getD "")
        tokens i with
    | Except.error e => Except.error e
    | Except.ok (some card, tokens') =>
      if card ≠ "" then Except.ok (card, tokens')
      else Except.ok (renderTokenOut, tokens')
    | Except.ok (none, tokens') => Except.ok (renderTokenOut, tokens')
  else Except.ok (renderTokenOut, tokens)

/-- The plugin's `renderInline` override: hidden tokens contribute nothing;
a token with a registered rule uses the rule's output, all others the host's
`renderToken` output. Rules and the host renderer are abstracted as
functions of the token list and index. -/
def renderInline (ruleFor : String → Option (List Token → Nat → String))
    (renderToken : List Token → Nat → String) (tokens : List Token) : String :=
  (List.range tokens.length).foldl
    (fun result i =>
      let currentToken := tokens.getD i default
      if currentToken.hidden then result ++ ""
      else
        match ruleFor currentToken.type with
        | some rule => result ++ rule tokens i
        | none => result ++ renderToken tokens i)
    ""

/-- Decidable equality for `Except`, used to evaluate the embedded functions
at concrete inputs. -/
instance {e a : Type} [DecidableEq e] [DecidableEq a] : DecidableEq (Except e a) := fun x y =>
  match x, y with
  | Except.error u, Except.error v =>
    if h : u = v then Decidable.isTrue (by rw [h])
    else Decidable.isFalse (fun hc => h (by injection hc))
  | Except.error _, Except.ok _ => Decidable.isFalse (fun hc => by injection hc)
  | Except.ok _, Except.error _ => Decidable.isFalse (fun hc => by injection hc)
  | Except.ok u, Except.ok v =>
    if h : u = v then Decidable.isTrue (by rw [h])
    else Decidable.isFalse (fun hc => h (by injection hc))

/-- C1: for a page text with no title/description/image/icon tags (here the
empty page) the claim says `parserMetadata` returns null; the code instead
substitutes the default logo before the emptiness check, so the `isString`
filter sees a string-valued `logo` and a full record is returned — the null
branch is unreachable. -/
theorem parserMetadata_empty_page_not_null :
    parserMetadata ("") ("https://example.com") =
      Except.ok (some { title := none, description := none, logo := some DEFAULT_LOGO }) := by
  decide

/-- C2: an absolute logo candidate is indeed returned unchanged, but for the
relative candidate `/img/a.png` with source URL
`https://example.com/blog/post` the claim says the result is
`https://example.com/img/a.png`; in the code `extractUrl` (`new URL`) throws
a `TypeError` on the relative candidate before the origin-concatenation
expression can run, so `absolute` propagates an error instead. -/
theorem absolute_relative_candidate_throws :
    absolute ("https://example.com/blog/post") (some ("https://cdn.example.com/a.png")) =
      Except.ok ("https://cdn.example.com/a.png") ∧
    absolute ("https://example.com/blog/post") (some ("/img/a.png")) =
      Except.error urlTypeError := by
  constructor
  · decide
  · decide

/-- C3: the claim says `parserMetadata` never raises, in particular on a page
whose favicon href is the relative `/favicon.ico`; on exactly that page the
extracted logo candidate is `/favicon.ico` and `new URL('/favicon.ico')`
throws a `TypeError`, which `parserMetadata` propagates. -/
theorem parserMetadata_relative_favicon_throws :
    parserMetadata ("<link rel=\"icon\" href=\"/favicon.ico\">") ("https://example.com") =
      Except.error urlTypeError := by
  decide

/-- C5: the claim says HTML-significant characters in title and description
are escaped in the rendered fragment; with title `a<b` and description
`c&lt;d` the output contains `a<b` verbatim and no escaped form, and the
entity `&lt;` in the description is even decoded to `<` — the renderer's
`escapeHTML` decodes entities instead of escaping. -/
theorem generateCardDomFragment_does_not_escape :
    (generateCardDomFragment
        { title := some ("a<b"), description := some ("c&lt;d"),
          logo := some ("https://example.com/l.png") }
        { href := ("https://example.com"), linkTitle := ("L"), target := ("_blank"),
          classPfx := none }).map
      (fun out => (containsSubstr (("a<b").data) out.data,
                   containsSubstr (("a&lt;").data) out.data,
                   containsSubstr (("c<d").data) out.data)) =
      Except.ok (true, false, true) := by
  decide

/-- C6: the claim says a supplied class-name prefix makes the default
renderer emit prefix-derived class names instead of inline style attributes;
with the prefix `my-card` supplied, the output contains no occurrence of
`my-card` at all and still carries inline `style="` attributes — the default
renderer never reads the prefix option. -/
theorem generateCardDomFragment_ignores_class_option :
    (generateCardDomFragment
        { title := some ("Doc"), description := some ("A site"),
          logo := some ("https://example.com/l.png") }
        { href := ("https://example.com"), linkTitle := ("L"), target := ("_blank"),
          classPfx := some ("my-card") }).map
      (fun out => (containsSubstr (("my-card").data) out.data,
                   containsSubstr (("style=\"").data) out.data)) =
      Except.ok (false, true) := by
  decide

/-- The GitHub repository page title from the claim. -/
def ghTitleInput : String :=
  "GitHub - asumo-1xts/vitepress-linkcard: A VitePress plugin to generate a pretty linkcard."

/-- The GitHub repository page description from the claim. -/
def ghDescInput : String :=
  "A VitePress plugin to generate a pretty linkcard. Contribute to asumo-1xts/vitepress-linkcard development by creating an account on GitHub."

/-- C7 counterexample: the displayed description is not exactly
`A VitePress plugin to generate a pretty linkcard.` — removing the
boilerplate sentence leaves the space that separated the two sentences, so
the conjunction claimed (exact title and exact description) is false. -/
theorem github_cleanup_description_differs :
    ¬ (githubTitle (some ghTitleInput) = ("asumo-1xts/vitepress-linkcard") ∧
       githubDescription (some ghDescInput) (githubTitle (some ghTitleInput)) =
         ("A VitePress plugin to generate a pretty linkcard.")) := by
  intro h
  exact absurd h.2 (by decide)

/-- C7 amended: on domain `github.com` the displayed title is exactly
`asumo-1xts/vitepress-linkcard` and the displayed description is exactly
`A VitePress plugin to generate a pretty linkcard. ` — the claimed text
followed by one trailing space left over from removing the boilerplate
contribution sentence. -/
theorem github_cleanup_exact :
    deriveDomain ("https://github.com/asumo-1xts/vitepress-linkcard") =
      Except.ok ("github.com") ∧
    githubTitle (some ghTitleInput) = ("asumo-1xts/vitepress-linkcard") ∧
    githubDescription (some ghDescInput) (githubTitle (some ghTitleInput)) =
      ("A VitePress plugin to generate a pretty linkcard. ") := by
  refine ⟨by decide, by decide, by decide⟩

/-- C4: when the page text contains an OGP-style meta tag carrying a title
attribute (the meta+title regex finds a match `m0`) whose `content`
attribute yields the value `c`, and the page also contains a plain
`<title>` element (the title-tag regex matches), the extractor's title is
exactly the meta tag's content value `c` — the plain title element is never
consulted. -/
theorem title_ogp_beats_plain_title (html : String) (m0 c t0 : List Char)
    (hmeta : jsMatch0 (containArrSelfLosingHtmlTagReg ("title") ("meta")) html = some m0)
    (hcontent : jsMatchGroup ContentAttrValueHtmlMetaTagReg (⟨m0⟩ : String) 1 = some c)
    (_hplain : jsMatch0 HtmlTitleTagReg html = some t0) :
    matchTitleByMetaTag html = some (⟨c⟩ : String) := by
  unfold matchTitleByMetaTag
  rw [hmeta]
  show Option.map (fun l => (⟨l⟩ : String))
      (jsMatchGroup ContentAttrValueHtmlMetaTagReg (⟨m0⟩ : String) 1) = some (⟨c⟩ : String)
  rw [hcontent]
  rfl

/-- C4 witness: a page carrying both `<meta property="og:title" content="A">`
and `<title>B</title>` titles to `A`, not `B`. -/
theorem title_ogp_beats_plain_title_witness :
    matchTitleByMetaTag ("<meta property=\"og:title\" content=\"A\"><title>B</title>") =
      some ("A") :=
  title_ogp_beats_plain_title
    ("<meta property=\"og:title\" content=\"A\"><title>B</title>")
    (("<meta property=\"og:title\" content=\"A\">").data)
    (("A").data)
    (("<title>B</title>").data)
    (by decide) (by decide) (by decide)

/-- JS object lookup distributes over cons in the expected way. -/
lemma objGet_cons (p : String × UrlMetadata) (t : CacheObj) (k : String) :
    objGet (p :: t) k = if p.1 = k then some p.2 else objGet t k := by
  by_cases h : p.1 = k <;> simp [objGet, List.find?, h]

/-- Writing the same property twice with the same value is a no-op on the
second write. -/
lemma objAssignOne_idem (m : CacheObj) (k : String) (v : UrlMetadata) :
    objAssignOne (objAssignOne m k v) k v = objAssignOne m k v := by
  induction m with
  | nil => simp [objAssignOne]
  | cons p t ih =>
    by_cases h : p.1 = k
    · simp [objAssignOne, h]
    · simp [objAssignOne, h, ih]

/-- After writing a property, reading it back gives the written value. -/
lemma objGet_assignOne_self (m : CacheObj) (k : String) (v : UrlMetadata) :
    objGet (objAssignOne m k v) k = some v := by
  induction m with
  | nil => simp [objAssignOne, objGet_cons]
  | cons p t ih =>
    by_cases h : p.1 = k
    · simp [objAssignOne, h, objGet_cons]
    · simp [objAssignOne, h, objGet_cons, ih]

/-- Writing one property leaves every other property unchanged. -/
lemma objGet_assignOne_ne (m : CacheObj) (k k' : String) (v : UrlMetadata)
    (h : k' ≠ k) :
    objGet (objAssignOne m k v) k' = objGet m k' := by
  have h' : ¬ k = k' := fun hc => h hc.symm
  induction m with
  | nil => simp [objAssignOne, objGet_cons, objGet, h']
  | cons p t ih =>
    by_cases hp : p.1 = k
    · subst hp
      simp [objAssignOne, objGet_cons, h']
    · simp [objAssignOne, hp, objGet_cons, ih]

/-- C8: for every parsed cache-file state, calling `set(url, metadata)`
twice with the same URL and metadata leaves the stored file's parsed content
exactly as after the first call, and calling `set` for a second, distinct
URL preserves the first URL's entry. -/
theorem cacheSet_idempotent_and_preserving (m : CacheObj) (u1 u2 : String)
    (d1 d2 : UrlMetadata) (hne : u1 ≠ u2) :
    cacheSet (some (cacheSet (some m) u1 d1)) u1 d1 = cacheSet (some m) u1 d1 ∧
    cacheGet (some (cacheSet (some (cacheSet (some m) u1 d1)) u2 d2)) u1 = some d1 := by
  constructor
  · simpa [cacheSet, setFile] using objAssignOne_idem m u1 d1
  · have h1 : objGet (objAssignOne (objAssignOne m u1 d1) u2 d2) u1 =
        objGet (objAssignOne m u1 d1) u1 :=
      objGet_assignOne_ne (objAssignOne m u1 d1) u2 u1 d2 hne
    simpa [cacheSet, setFile, cacheGet, h1] using objGet_assignOne_self m u1 d1

/-- C8 witness: both cache properties at a concrete file state and two
concrete URLs. -/
theorem cacheSet_idempotent_and_preserving_witness :
    cacheSet (some (cacheSet (some []) ("https://a.com") ⟨some ("A"), none, none⟩))
        ("https://a.com") ⟨some ("A"), none, none⟩ =
      cacheSet (some []) ("https://a.com") ⟨some ("A"), none, none⟩ ∧
    cacheGet (some (cacheSet (some (cacheSet (some []) ("https://a.com")
        ⟨some ("A"), none, none⟩)) ("https://b.com") ⟨some ("B"), none, none⟩))
      ("https://a.com") = some ⟨some ("A"), none, none⟩ :=
  cacheSet_idempotent_and_preserving [] ("https://a.com") ("https://b.com")
    ⟨some ("A"), none, none⟩ ⟨some ("B"), none, none⟩ (by decide)

/-- Indexing into the loop of `ignoreRestToken`: the token at position `j`
is hidden exactly when its absolute index `idx + j` differs from `i`. -/
lemma ignoreGo_getElem (i idx : Nat) (ts : List Token) (j : Nat) :
    (ignoreRestTokenGo i idx ts)[j]? =
      (ts[j]?).map (fun t => if idx + j ≠ i then { t with hidden := true } else t) := by
  induction ts generalizing idx j with
  | nil => simp [ignoreRestTokenGo]
  | cons t rest ih =>
    cases j with
    | zero => simp [ignoreRestTokenGo]
    | succ j' =>
      have harith : idx + (j' + 1) = (idx + 1) + j' := by omega
      simp only [ignoreRestTokenGo, List.getElem?_cons_succ, ih (idx + 1) j', harith]

/-- C9 amended: when a card link is matched at index `i`, `ignoreRestToken`
marks every other token of the whole inline stream hidden — not only the
matched link's own sibling tokens — while the token at `i` itself is kept
unchanged; hidden tokens are skipped by the plugin's `renderInline`
override, so nothing else in the stream renders through the normal path. -/
theorem ignoreRestToken_hides_all_others (tokens : List Token) (i j : Nat)
    (hj : j < tokens.length) (hne : j ≠ i) :
    ((ignoreRestToken tokens i)[j]?).map Token.hidden = some true ∧
    (ignoreRestToken tokens i)[i]? = tokens[i]? := by
  constructor
  · rw [ignoreRestToken, ignoreGo_getElem, List.getElem?_eq_getElem hj]
    simp [Nat.zero_add, hne]
  · rw [ignoreRestToken, ignoreGo_getElem]
    cases h : tokens[i]? with
    | none => simp
    | some t => simp

/-- Metadata returned by the abstracted `getUrlMetadata` in the C9 token
stream counterexample. -/
def cardStreamMeta : UrlMetadata :=
  { title := some ("T"), description := some ("D"), logo := some ("https://e.com/l.png") }

/-- An inline token stream holding a tagged card link (indices 0 to 2), a
text token between links (index 3) and a second, non-matching link (indices
4 to 6). -/
def cardStreamTokens : List Token :=
  [ { type := "link_open", tag := "a",
      attrs := some [[("href"), ("@:https://e.com")]], content := "", hidden := false },
    { type := "text", tag := "", attrs := none, content := "card", hidden := false },
    { type := "link_close", tag := "a", attrs := none, content := "", hidden := false },
    { type := "text", tag := "", attrs := none, content := " and ", hidden := false },
    { type := "link_open", tag := "a",
      attrs := some [[("href"), ("https://other.com")]], content := "other link",
      hidden := false },
    { type := "text", tag := "", attrs := none, content := "other", hidden := false },
    { type := "link_close", tag := "a", attrs := none, content := "", hidden := false } ]

/-- C9 counterexample: after the `link_open` rule matches the card link at
index 0 and substitutes a card, the claim says the second, non-matching link
(index 4) and the text between the links (index 3) still render through the
normal path unchanged; in fact both have been marked hidden, so the
renderer's hidden-token branch silences them. -/
theorem linkOpenRule_hides_unrelated_link :
    (linkOpenRule (fun _ => some cardStreamMeta) none none cardStreamTokens 0
        ("<a>")).map
      (fun r => ((r.2.getD 4 default).hidden, (r.2.getD 3 default).hidden)) ≠
      Except.ok (false, false) := by
  decide

/-- C9 witness: in the concrete stream, the unrelated link token at index 4
is hidden after `ignoreRestToken` while the matched token at index 0 is
unchanged. -/
theorem ignoreRestToken_hides_all_others_witness :
    ((ignoreRestToken cardStreamTokens 0)[4]?).map Token.hidden = some true ∧
    (ignoreRestToken cardStreamTokens 0)[0]? = cardStreamTokens[0]? :=
  ignoreRestToken_hides_all_others cardStreamTokens 0 4 (by decide) (by decide)

/-- The greedy star loop succeeds whenever its fallback continuation
succeeds on the current state. -/
lemma starLoop_isSome (body : List Char → Groups → MCont → Option (List Char × Groups))
    (fuel : Nat) (s : List Char) (gs : Groups) (k : MCont)
    (hk : (k s gs).isSome = true) : (starLoop body fuel s gs k).isSome = true := by
  cases fuel with
  | zero => simpa [starLoop] using hk
  | succ n =>
    simp only [starLoop]
    cases hb : body s gs (fun s' gs' =>
        if s'.length < s.length then starLoop body n s' gs' k else none) with
    | some r => simp
    | none => simpa using hk

/-- The anchored card-tag regex `^(@:)([a-zA-Z0-9]+.*)` matches a string iff
it starts with `@:` immediately followed by an ASCII alphanumeric
character. -/
lemma reMatchAt_tagRegexp_isSome (l : List Char) :
    (reMatchAt tagRegexp l).isSome = true ↔
      ∃ c rest, l = '@' :: ':' :: c :: rest ∧ asciiAlnum c = true := by
  have hbridge : (reMatchAt tagRegexp l).isSome =
      (reMatch tagRegexp l [] (fun rem gs => some (rem, gs))).isSome := by
    unfold reMatchAt
    cases h : reMatch tagRegexp l [] (fun rem gs => some (rem, gs)) with
    | none => simp
    | some r => cases r with | mk a b => simp
  rw [hbridge]
  cases l with
  | nil =>
    apply iff_of_false
    · decide
    · rintro ⟨c, rest, hsh, -⟩
      exact absurd hsh (by simp)
  | cons c1 t =>
    by_cases h1 : c1 = '@'
    case neg =>
      apply iff_of_false
      · simp [tagRegexp, rePlus, reMatch, lits, h1]
      · rintro ⟨c, rest, hsh, -⟩
        rw [List.cons.injEq] at hsh
        exact h1 hsh.1
    case pos =>
    subst h1
    cases t with
    | nil =>
      apply iff_of_false
      · decide
      · rintro ⟨c, rest, hsh, -⟩
        simp at hsh
    | cons c2 u =>
      by_cases h2 : c2 = ':'
      case neg =>
        apply iff_of_false
        · simp [tagRegexp, rePlus, reMatch, lits, h2]
        · rintro ⟨c, rest, hsh, -⟩
          simp only [List.cons.injEq] at hsh
          exact h2 hsh.2.1
      case pos =>
      subst h2
      cases u with
      | nil =>
        apply iff_of_false
        · decide
        · rintro ⟨c, rest, hsh, -⟩
          simp at hsh
      | cons c3 v =>
        by_cases h3 : asciiAlnum c3 = true
        case pos =>
          apply iff_of_true
          · simp only [tagRegexp, rePlus, reMatch, lits, if_true, h3]
            exact starLoop_isSome _ _ _ _ _ (starLoop_isSome _ _ _ _ _ rfl)
          · exact ⟨c3, v, rfl, h3⟩
        case neg =>
          apply iff_of_false
          · simp [tagRegexp, rePlus, reMatch, lits, h3]
          · rintro ⟨c, rest, hsh, hc⟩
            simp only [List.cons.injEq] at hsh
            rw [← hsh.2.2.1] at hc
            exact h3 hc

/-- C10: `parseCardLinkHref` classifies an href as a card link iff the href
starts with the two characters `@:` immediately followed by an ASCII
alphanumeric character; an href whose URL part starts with anything else
(for example `@:/relative/path` or `@:#fragment`) is not a card link, so the
`link_open` rule falls through to the host's normal rendering. -/
theorem parseCardLinkHref_iff (s : String) :
    (parseCardLinkHref (some s)).isCardLink = true ↔
      ∃ c rest, s.data = '@' :: ':' :: c :: rest ∧ asciiAlnum c = true := by
  have hred : (parseCardLinkHref (some s)).isCardLink =
      (reMatchAt tagRegexp s.data).isSome := by
    simp only [parseCardLinkHref]
    cases h : reMatchAt tagRegexp s.data with
    | none => rfl
    | some r => cases r with | mk a b => rfl
  rw [hred]
  exact reMatchAt_tagRegexp_isSome s.data

/-- C10 witness: `@:https://example.com` is a card link, while
`@:/relative/path` and `@:#fragment` are not. -/
theorem parseCardLinkHref_iff_witness :
    (parseCardLinkHref (some ("@:https://example.com"))).isCardLink = true ∧
    (parseCardLinkHref (some ("@:/relative/path"))).isCardLink = false ∧
    (parseCardLinkHref (some ("@:#fragment"))).isCardLink = false :=
  ⟨(parseCardLinkHref_iff ("@:https://example.com")).mpr
      ⟨'h', ("ttps://example.com").data, by decide, by decide⟩,
   by decide, by decide⟩
